import Mathlib

/-!
Shallow embedding of the ubnt client (ubnt.c, device.h, utils.h): the
string utilities `rstrip` and `strip`, the mca-status output transformer
`mca_to_json`, the command-executor read loop `ubnt_exec_command`, the
public-key connection routine `ubnt_connect_key`, the connection
predicate `ubnt_is_connected`, and the scp bulk pull
`ubnt_copy_config_to_buffer`.

C strings are modelled as NUL-free `List Char`.  Where a function's
execution can leave the defined fragment of C (an out-of-bounds access),
the model returns an `Option` and marks that case `none`.  Calls into
libssh are modelled by traces: a structure carrying the return codes and
the data the transport would deliver, quantified over in the theorems.
-/

/-- C `isspace` in the C locale: space, tab, newline, vertical tab, form
feed, carriage return. -/
def isspace (c : Char) : Bool :=
  c = ' ' || c = '\t' || c = '\n' || c = '\x0B' || c = '\x0C' || c = '\r'

/-- The scan of `rstrip` (utils.h lines 18-32): starting at `i = strlen`,
decrement `i` while `isspace(str[i - 1])`.  The loop has no lower bound:
when `i` reaches 0 the next probe reads `str[-1]`, before the start of
the buffer, so that case is undefined and modelled as `none`. -/
def rstripLoop (s : List Char) : Nat → Option Nat
  | 0 => none
  | i + 1 => if isspace (s.getD i ' ') then rstripLoop s i else some (i + 1)

/-- Model of `rstrip` (utils.h lines 18-32): run the scan from the length
of the string and truncate there; an empty string is returned unchanged
(the `i > 0` guard). -/
def rstrip (s : List Char) : Option (List Char) :=
  if s.length = 0 then some s
  else (rstripLoop s s.length).map fun i => s.take i

/-- The bytes the loop of `strip` examines.  The loop runs `i` from 0 to
`strlen(str) + 99`, so it scans the characters of the string, then the
terminating NUL, then 99 bytes lying past the terminator; `junk`
supplies those bytes (in this repository `strip` is applied to the large
zero-initialised buffer returned by `ubnt_exec_command`, so the reads
stay inside the allocation and the bytes are whatever the drain left
there). -/
def stripScanned (s : List Char) (junk : Nat → Char) : List Char :=
  s ++ '\x00' :: (List.range 99).map junk

/-- The filter of `strip`: every byte other than `\n`, `\t` and `\r` is
copied. -/
def keepChar (c : Char) : Bool :=
  c ≠ '\n' && c ≠ '\t' && c ≠ '\r'

/-- Model of `strip` (utils.h lines 40-59): a null pointer in gives a null
pointer out; otherwise every scanned byte passing `keepChar` is copied in
order, `j` counting the copies, and `stripped_str[j] = '\0'` is stored
after the loop.  The output block is `malloc(length)` with
`length = strlen + 100`, exactly the number of scanned bytes; when every
scanned byte passes the filter (NUL does - only `\n`, `\t`, `\r` are
dropped), `j` reaches `length` and the terminator store lands one byte
past the allocation: undefined, `none`.  Otherwise the result is read
back as a C string, i.e. up to the first NUL - the input's terminator,
itself copied by the loop. -/
def strip (s : Option (List Char)) (junk : Nat → Char) : Option (List Char) :=
  match s with
  | none => none
  | some str =>
      let kept := (stripScanned str junk).filter keepChar
      if kept.length = str.length + 100 then none
      else some (kept.takeWhile fun c => c ≠ '\x00')

/-- `mca_parsed_size` (ubnt.c line 286): the fixed output allocation. -/
def MCA_PARSED_SIZE : Nat := 2048

/-- Index of the first occurrence of the two-character substring `", "`,
as `strstr(str, ", ")` locates it (ubnt.c line 289). -/
def findCommaSpace : List Char → Option Nat
  | [] => none
  | [_] => none
  | c :: d :: rest =>
    if c = ',' ∧ d = ' ' then some 0
    else (findCommaSpace (d :: rest)).map (· + 1)

/-- The pre-pass of `mca_to_json` (ubnt.c lines 289-291): overwrite the
first `", "` with `"--"` via `strncpy(sub, "--", 2)`; everything before
and after those two characters is untouched. -/
def prePass (s : List Char) : List Char :=
  match findCommaSpace s with
  | none => s
  | some i => s.take i ++ '-' :: '-' :: s.drop (i + 2)

/-- The character loop of `mca_to_json` (ubnt.c lines 299-333).  `prev` is
the character at `str[i - 1]` (`none` when `i = 0`).  All writes land at
consecutive positions of the write cursor `j`, so the emitted bytes are
modelled as a list.  A `'\r'` at index 0 makes the code read `str[-1]`,
before the start of the input: undefined, `none`.  A `'\r'` whose
predecessor is `'\n'` advances `i` a second time - the following
character is consumed without being examined - and decrements `j` only
to have the loop increment restore it, so nothing is emitted. -/
def mcaLoop : Option Char → List Char → Option (List Char)
  | _, [] => some []
  | prev, c :: rest =>
    if c = '=' then (mcaLoop (some c) rest).map fun t => '"' :: ':' :: '"' :: t
    else if c = ',' then (mcaLoop (some c) rest).map fun t => '"' :: ',' :: '"' :: t
    else if c = '\r' then
      match prev with
      | none => none
      | some p =>
        if p = '\n' then
          match rest with
          | [] => some []
          | d :: rest2 => mcaLoop (some d) rest2
        else (mcaLoop (some c) rest).map fun t => '"' :: t
    else if c = '\n' then (mcaLoop (some c) rest).map fun t => ',' :: '"' :: t
    else (mcaLoop (some c) rest).map fun t => c :: t

/-- Model of `mca_to_json` (ubnt.c lines 283-341): pre-pass, the fixed
prefix `[` `\x7b` `"`, the character loop, then the fixed suffix `"`
`\x7d` `]` and the terminator.  All of it is written into a fixed
2048-byte allocation, so an output needing more than 2048 bytes
(terminator included) overruns the buffer: undefined, `none`. -/
def mca_to_json (s : List Char) : Option (List Char) :=
  match mcaLoop none (prePass s) with
  | none => none
  | some body =>
    let out := '[' :: '{' :: '"' :: body ++ ['"', '}', ']']
    if out.length + 1 ≤ MCA_PARSED_SIZE then some out else none

/-- One poll/read cycle of the drain loop of `ubnt_exec_command`
(ubnt.c line 195): `ssh_channel_read_timeout(channel, buffer, pbytes, 0,
TIMEOUT)` deposits the delivered chunk at offset 0 of the buffer - not at
the running offset `nbytes` - overwriting the front of whatever earlier
cycles read. -/
def writeAtZero (buf chunk : List Char) : List Char :=
  chunk ++ buf.drop chunk.length

/-- The written extent of the `calloc`ed output buffer after the drain
loop consumes `chunks` in order (the bytes past the extent stay NUL, as
`calloc` left them). -/
def drainBuf (chunks : List (List Char)) : List Char :=
  chunks.foldl writeAtZero []

/-- C-string view of a byte sequence: the bytes before the first NUL. -/
def cstring (l : List Char) : List Char :=
  l.takeWhile fun c => c ≠ '\x00'

/-- Transport-level trace of one `ubnt_exec_command` call: whether
`ssh_channel_new` returned a channel, whether `ssh_channel_open_session`
and `ssh_channel_request_exec` returned `SSH_OK`, and the chunks the
successful poll/read cycles delivered before a non-positive poll or
eof/closed state ended the loop. -/
structure ExecTrace where
  chanOk : Bool
  openOk : Bool
  execOk : Bool
  chunks : List (List Char)

/-- Model of `ubnt_exec_command` (ubnt.c lines 176-207).  The function
assigns but never tests the return codes of `ssh_channel_open_session`
and `ssh_channel_request_exec`; a channel whose creation, open or exec
step failed is not open and delivers no data, so the drain loop then
reads nothing.  The cleanup calls (send eof, close, free) run on every
path, and the `calloc`ed buffer is returned unconditionally: this
variant never returns a null pointer.  `none` marks the one undefined
case, the `rstrip` scan running off the front of an all-whitespace
buffer. -/
def ubnt_exec_command (t : ExecTrace) : Option (List Char) :=
  let delivered := if t.chanOk && t.openOk && t.execOk then t.chunks else []
  rstrip (cstring (drainBuf delivered))

/-- libssh `SSH_OK`. -/
def SSH_OK : Int := 0

/-- libssh `SSH_ERROR`. -/
def SSH_ERROR : Int := -1

/-- libssh `SSH_AUTH_SUCCESS`. -/
def SSH_AUTH_SUCCESS : Int := 0

/-- The five transport calls `ubnt_connect_key` can make, in source
order. -/
inductive KeyStep where
  | importPub
  | connect
  | tryPub
  | importPriv
  | auth
deriving DecidableEq

/-- Return codes the transport would hand to each step of
`ubnt_connect_key`. -/
structure KeyTrace where
  importPubRc : Int
  connectRc : Int
  tryPubRc : Int
  importPrivRc : Int
  authRc : Int

/-- Model of `ubnt_connect_key` (ubnt.c lines 139-157): the public-key
import, `ssh_connect` and `ssh_userauth_try_publickey` all run
unconditionally, each overwriting `rc`; only the private-key import and
the final `ssh_userauth_publickey` are gated, and only on the try step
having returned `SSH_AUTH_SUCCESS`.  Both keys are freed on every path.
Returns the final value of `rc` together with the list of steps
performed. -/
def ubnt_connect_key (t : KeyTrace) : Int × List KeyStep :=
  if t.tryPubRc = SSH_AUTH_SUCCESS then
    (t.authRc,
      [KeyStep.importPub, KeyStep.connect, KeyStep.tryPub, KeyStep.importPriv, KeyStep.auth])
  else
    (t.tryPubRc, [KeyStep.importPub, KeyStep.connect, KeyStep.tryPub])

/-- Model of `ubnt_is_connected` (ubnt.c lines 381-384): it returns
`!ssh_is_connected(device->session)` - 0 when the transport reports an
active connection and 1 otherwise, exactly as its own doc comment states
("0 for connected and 1 for disconnected"). -/
def ubnt_is_connected (connected : Bool) : Nat :=
  if connected then 0 else 1

/-- `CONNECTION_OK` (device.h line 13). -/
def CONNECTION_OK : Int := 0

/-- libssh `SSH_SCP_REQUEST_NEWFILE`. -/
def SSH_SCP_REQUEST_NEWFILE : Int := 1

/-- `SCP_READ_SIZE` (device.h line 19). -/
def SCP_READ_SIZE : Nat := 2048

/-- Trace of one `ubnt_copy_config_to_buffer` call: the `ssh_scp_init`
result, the first `ssh_scp_pull_request` result, the advertised file
size, the byte count each `ssh_scp_read` returns, and whether the
`ssh_scp_pull_request` issued after the k-th read reports
`SSH_SCP_REQUEST_EOF`. -/
structure ScpTrace where
  initRc : Int
  firstPullRc : Int
  size : Nat
  delivered : Nat → Nat
  pullEof : Nat → Bool

/-- `num_reads = (file_size / SCP_READ_SIZE) + 1` (ubnt.c line 411): the
row budget of the chunk loop. -/
def numReads (size : Nat) : Nat := size / SCP_READ_SIZE + 1

/-- The do/while read loop of `ubnt_copy_config_to_buffer` (ubnt.c lines
416-422): perform a read, increment `i`, continue while the next pull
request is not EOF and `i < num_reads`.  Returns the number of reads
performed and the accumulated `rc` (the sum of the byte counts the reads
returned).  `fuel` starts at `num_reads`, enough for every iteration the
budget admits. -/
def scpLoop (t : ScpTrace) : Nat → Nat → Nat → Nat × Nat
  | 0, i, rc => (i, rc)
  | fuel + 1, i, rc =>
    let rc2 := rc + t.delivered i
    if t.pullEof i = false ∧ i + 1 < numReads t.size then scpLoop t fuel (i + 1) rc2
    else (i + 1, rc2)

/-- Observable outcome of `ubnt_copy_config_to_buffer`: the returned
`rc`, the number of `ssh_scp_read` calls, and the number of bytes the
final `memcpy` places into the caller's buffer. -/
structure ScpResult where
  rc : Int
  readCount : Nat
  copied : Nat

/-- Model of `ubnt_copy_config_to_buffer` (ubnt.c lines 397-432): init,
first pull request, the chunked do/while loop, then
`memcpy(buffer, *tmp_buffer, file_size)`, which places exactly
`file_size` bytes into the caller's buffer however many bytes the reads
delivered.  On the non-happy paths nothing is copied and the failing
step's code is returned. -/
def ubnt_copy_config_to_buffer (t : ScpTrace) : ScpResult :=
  if t.initRc = CONNECTION_OK then
    if t.firstPullRc = SSH_SCP_REQUEST_NEWFILE then
      let p := scpLoop t (numReads t.size) 0 0
      ⟨Int.ofNat p.2, p.1, t.size⟩
    else ⟨t.firstPullRc, 0, 0⟩
  else ⟨t.initRc, 0, 0⟩

/-- Least `k` in `[start, start + fuel)` with `p k = true`, and
`start + fuel` when there is none. -/
def firstTrueFrom (p : Nat → Bool) : Nat → Nat → Nat
  | start, 0 => start
  | start, fuel + 1 => if p start then start else firstTrueFrom p (start + 1) fuel

/-- A NUL-free byte sequence is its own C-string view. -/
theorem cstringNulFree (l : List Char) (h : ∀ a ∈ l, a ≠ '\x00') :
    cstring l = l := by
  induction l with
  | nil => rfl
  | cons a l ih =>
    have ha : a ≠ '\x00' := h a (List.mem_cons_self a l)
    have hd : (fun c => decide (c ≠ '\x00')) a = true := by
      simp [ha]
    simp only [cstring, List.takeWhile_cons] at *
    rw [hd]
    simp only [if_true]
    rw [ih fun b hb => h b (List.mem_cons_of_mem a hb)]

/-- The written extent of the drain buffer never exceeds the longest
write: folding `writeAtZero` keeps the length at most `n` when the
accumulator and every chunk are at most `n` long. -/
theorem drainLen (n : Nat) :
    ∀ (cs : List (List Char)) (acc : List Char), acc.length ≤ n →
      (∀ d ∈ cs, d.length ≤ n) → (cs.foldl writeAtZero acc).length ≤ n := by
  intro cs
  induction cs with
  | nil =>
    intro acc h _
    simpa using h
  | cons c cs ih =>
    intro acc hacc hcs
    simp only [List.foldl_cons]
    apply ih
    · have hc : c.length ≤ n := hcs c (List.mem_cons_self c cs)
      simp only [writeAtZero, List.length_append, List.length_drop]
      omega
    · intro d hd
      exact hcs d (List.mem_cons_of_mem c hd)

/-- The scp read loop performs `firstTrueFrom pullEof i (fuel - 1) + 1`
reads when entered with `i` reads already done and fuel
`num_reads - i > 0`: it stops after the first read whose following pull
request reports EOF, or once the row budget is exhausted. -/
theorem scpLoopCount (t : ScpTrace) :
    ∀ fuel i rc, i + fuel = numReads t.size → 0 < fuel →
      (scpLoop t fuel i rc).1 = firstTrueFrom t.pullEof i (fuel - 1) + 1 := by
  intro fuel
  induction fuel with
  | zero =>
    intro i rc _ h0
    omega
  | succ f ih =>
    intro i rc hsum _
    simp only [scpLoop]
    by_cases hc : t.pullEof i = false ∧ i + 1 < numReads t.size
    · rw [if_pos hc]
      have hf : 0 < f := by omega
      rw [ih (i + 1) (rc + t.delivered i) (by omega) hf]
      obtain ⟨g, rfl⟩ : ∃ g, f = g + 1 := ⟨f - 1, by omega⟩
      simp [firstTrueFrom, hc.1]
    · rw [if_neg hc]
      have hstop : firstTrueFrom t.pullEof i f = i := by
        rcases Nat.eq_zero_or_pos f with hf | hf
        · subst hf; rfl
        · obtain ⟨g, rfl⟩ : ∃ g, f = g + 1 := ⟨f - 1, by omega⟩
          have hp : t.pullEof i = true := by
            by_contra hp
            exact hc ⟨by simpa using hp, by omega⟩
          simp [firstTrueFrom, hp]
      simp [hstop]

/-- `findCommaSpace` returns the least index at which a comma is
immediately followed by a space, and such an index is in bounds. -/
theorem findCSFirst : ∀ (s : List Char) (i : Nat), findCommaSpace s = some i →
    s.getD i 'x' = ',' ∧ s.getD (i + 1) 'x' = ' ' ∧ i + 1 < s.length ∧
      ∀ j, j < i → ¬(s.getD j 'x' = ',' ∧ s.getD (j + 1) 'x' = ' ')
  | [], i, h => by simp [findCommaSpace] at h
  | [c], i, h => by simp [findCommaSpace] at h
  | c :: d :: rest, i, h => by
    simp only [findCommaSpace] at h
    by_cases hcd : c = ',' ∧ d = ' '
    · rw [if_pos hcd] at h
      obtain rfl : (0 : Nat) = i := by simpa using h
      refine ⟨by simp [hcd.1], by simp [hcd.2], by simp, ?_⟩
      intro j hj
      omega
    · rw [if_neg hcd] at h
      obtain ⟨i2, h2, rfl⟩ : ∃ i2, findCommaSpace (d :: rest) = some i2 ∧ i2 + 1 = i := by
        cases hfind : findCommaSpace (d :: rest) with
        | none => rw [hfind] at h; simp at h
        | some k =>
          rw [hfind] at h
          simp at h
          exact ⟨k, rfl, h⟩
      have IH := findCSFirst (d :: rest) i2 h2
      refine ⟨by simpa using IH.1, by simpa using IH.2.1, ?_, ?_⟩
      · have := IH.2.2.1
        simp only [List.length_cons] at this ⊢
        omega
      · intro j hj
        cases j with
        | zero =>
          intro hocc
          exact hcd ⟨by simpa using hocc.1, by simpa using hocc.2⟩
        | succ j2 =>
          intro hocc
          exact IH.2.2.2 j2 (by omega) ⟨by simpa using hocc.1, by simpa using hocc.2⟩

/-- C1 (counterexample): a drain of two successful poll/read cycles
delivering "ab" then "x" returns the buffer "xb", which still contains
the byte 'b' of the earlier chunk - the returned buffer does not contain
only the bytes of the final chunk. -/
theorem execDrainKeepsEarlierSuffix :
    ubnt_exec_command ⟨true, true, true, [['a', 'b'], ['x']]⟩ = some ['x', 'b']
    ∧ (['x', 'b'] : List Char) ≠ ['x'] := by
  decide

/-- C1 (amended): every timed read writes into the output buffer at
offset 0, so the drain overlays each chunk on the front of the previous
contents; whenever the final chunk is at least as long as every earlier
chunk, the buffer after the drain is exactly the final chunk, and the
call returns that chunk with its trailing whitespace trimmed. -/
theorem execDrainOffsetZeroLastChunk (cs : List (List Char)) (c : List Char)
    (hcs : cs ≠ []) (hdom : ∀ d ∈ cs, d.length ≤ c.length)
    (hnul : ∀ a ∈ c, a ≠ '\x00') :
    drainBuf (cs ++ [c]) = c
    ∧ ubnt_exec_command ⟨true, true, true, cs ++ [c]⟩ = rstrip c := by
  have h1 : drainBuf (cs ++ [c]) = c := by
    unfold drainBuf
    rw [List.foldl_append]
    have hlen : (cs.foldl writeAtZero []).length ≤ c.length :=
      drainLen c.length cs [] (by simp) hdom
    show c ++ (cs.foldl writeAtZero []).drop c.length = c
    rw [List.drop_eq_nil_of_le hlen, List.append_nil]
  refine ⟨h1, ?_⟩
  show rstrip (cstring (drainBuf (if (true && true && true) = true then cs ++ [c] else []))) = rstrip c
  rw [if_pos (show (true && true && true) = true from rfl), h1, cstringNulFree c hnul]

/-- C1 (witness): chunks "a" then "xy"; the drain leaves exactly "xy". -/
theorem execDrainOffsetZeroLastChunkWitness :
    drainBuf [['a'], ['x', 'y']] = ['x', 'y']
    ∧ ubnt_exec_command ⟨true, true, true, [['a'], ['x', 'y']]⟩ = rstrip ['x', 'y'] :=
  execDrainOffsetZeroLastChunk [['a']] ['x', 'y'] (by decide) (by decide) (by decide)

/-- C2 (counterexample): on "key1=val1\nkey2=val2\r\n" the transformer
does not return the document the claim states. -/
theorem mcaCrlfExampleNeSpec :
    mca_to_json ("key1=val1\nkey2=val2\r\n".toList)
      ≠ some ("[\x7b\"key1\":\"val1\",\"key2\":\"val2\"\x7d]".toList) := by
  decide

/-- C2 (amended): on "key1=val1\nkey2=val2\r\n" the transformer returns
the 34-character document whose first value is left unclosed (the '\n'
case emits only comma-quote; the closing quote is expected from a
preceding '\r') and which gains an empty trailing field from the final
"\r\n" (that '\r' is preceded by '2', so it emits a closing quote, and
the final '\n' then opens one more field). -/
theorem mcaCrlfExampleActual :
    mca_to_json ("key1=val1\nkey2=val2\r\n".toList)
      = some ("[\x7b\"key1\":\"val1,\"key2\":\"val2\",\"\"\x7d]".toList) := by
  decide

/-- C3: with the public-key import failing (`SSH_ERROR`) and the try
step succeeding, `ubnt_connect_key` still performs the connect, the try,
the private-key import and the final authentication, and its return
value is the last step's code, not the import failure. -/
theorem connectKeyUngatedOnImportFailure :
    (ubnt_connect_key ⟨SSH_ERROR, SSH_OK, SSH_AUTH_SUCCESS, SSH_OK, SSH_OK⟩).1 ≠ SSH_ERROR
    ∧ KeyStep.connect ∈ (ubnt_connect_key ⟨SSH_ERROR, SSH_OK, SSH_AUTH_SUCCESS, SSH_OK, SSH_OK⟩).2
    ∧ KeyStep.importPriv ∈ (ubnt_connect_key ⟨SSH_ERROR, SSH_OK, SSH_AUTH_SUCCESS, SSH_OK, SSH_OK⟩).2 := by
  decide

/-- C4: when `ssh_channel_open_session` fails (and likewise when
`ssh_channel_request_exec` fails), `ubnt_exec_command` still returns the
`calloc`ed buffer - a non-null empty string - rather than a null
result. -/
theorem execNonnullOnOpenFailure :
    ubnt_exec_command ⟨true, false, true, []⟩ = some []
    ∧ ubnt_exec_command ⟨true, true, false, []⟩ = some [] := by
  decide

/-- C5 (counterexample): for an advertised size that is an exact multiple
of the chunk size (S = 2048, C = 2048) and a transport that never
reports EOF within the budget, the loop performs 2 reads, not
ceil(S/C) = 1. -/
theorem scpReadCountAtMultipleOfChunk :
    (ubnt_copy_config_to_buffer ⟨0, 1, 2048, fun _ => 2048, fun _ => false⟩).readCount
      ≠ (2048 + SCP_READ_SIZE - 1) / SCP_READ_SIZE := by
  decide

/-- C5 (amended): on the happy path the number of chunked reads is one
more than the index of the first post-read pull request reporting EOF,
capped by the budget `floor(S/C) + 1` (so with no early EOF it is
`floor(S/C) + 1`, which exceeds `ceil(S/C)` when C divides S), and the
final memcpy places exactly S bytes into the caller's buffer regardless
of how many bytes the reads delivered. -/
theorem scpReadCountAndCopy (t : ScpTrace)
    (h1 : t.initRc = CONNECTION_OK) (h2 : t.firstPullRc = SSH_SCP_REQUEST_NEWFILE) :
    (ubnt_copy_config_to_buffer t).readCount
      = firstTrueFrom t.pullEof 0 (t.size / SCP_READ_SIZE) + 1
    ∧ (ubnt_copy_config_to_buffer t).copied = t.size := by
  have hpos : 0 < numReads t.size := Nat.succ_pos _
  have hcount := scpLoopCount t (numReads t.size) 0 0 (Nat.zero_add _) hpos
  unfold ubnt_copy_config_to_buffer
  rw [if_pos h1, if_pos h2]
  constructor
  · show (scpLoop t (numReads t.size) 0 0).1 = _
    rw [hcount]
    rfl
  · rfl

/-- C5 (witness): size 4096, all chunks delivered, no early EOF: 3 reads
(4096/2048 + 1) and 4096 bytes copied. -/
theorem scpReadCountAndCopyWitness :
    (ubnt_copy_config_to_buffer ⟨0, 1, 4096, fun _ => 2048, fun _ => false⟩).readCount = 3
    ∧ (ubnt_copy_config_to_buffer ⟨0, 1, 4096, fun _ => 2048, fun _ => false⟩).copied = 4096 := by
  have h := scpReadCountAndCopy ⟨0, 1, 4096, fun _ => 2048, fun _ => false⟩ rfl rfl
  exact ⟨h.1.trans (by decide), h.2⟩

/-- C6 (counterexample): when the transport reports an active connection,
`ubnt_is_connected` returns 0, not a nonzero value. -/
theorem isConnectedInvertedAtTrue :
    ubnt_is_connected true = 0 := rfl

/-- C6 (amended): `ubnt_is_connected` returns 0 when the transport
reports an active connection and 1 when it does not - the logical
negation of the transport's own predicate, as the function's doc comment
states. -/
theorem isConnectedNegation :
    ubnt_is_connected true = 0 ∧ ubnt_is_connected false = 1 := by
  decide

/-- C7: on the all-whitespace string " ", the scan of `rstrip` runs past
the front of the buffer and reads `str[-1]`: the execution is undefined
(`none`), so `rstrip` does not return the trailing-whitespace-trimmed
string for every input. -/
theorem rstripAllWhitespaceUndefined :
    rstrip [' '] = none := by
  decide

/-- C8: if `strstr` locates `", "` at index `i`, then `i` is the least
index of a comma-space pair, the pair is in bounds, the pre-pass
rewrites exactly those two characters to "--" while copying the prefix
and the suffix (so later occurrences are unaltered), and on
"a=1, 2\nb=3\n" the value emitted for key a is 1--2. -/
theorem mcaPrePassFirstOccurrence (s : List Char) (i : Nat)
    (h : findCommaSpace s = some i) :
    (s.getD i 'x' = ',' ∧ s.getD (i + 1) 'x' = ' ' ∧ i + 1 < s.length ∧
      ∀ j, j < i → ¬(s.getD j 'x' = ',' ∧ s.getD (j + 1) 'x' = ' '))
    ∧ prePass s = s.take i ++ '-' :: '-' :: s.drop (i + 2)
    ∧ mca_to_json ("a=1, 2\nb=3\n".toList)
        = some ("[\x7b\"a\":\"1--2,\"b\":\"3,\"\"\x7d]".toList) := by
  refine ⟨findCSFirst s i h, ?_, by decide⟩
  simp [prePass, h]

/-- C8 (witness): on "a=1, 2\nb=3\n" the first comma-space pair sits at
index 3 and only it is overwritten. -/
theorem mcaPrePassFirstOccurrenceWitness :
    prePass ("a=1, 2\nb=3\n".toList)
      = ("a=1, 2\nb=3\n".toList).take 3 ++ '-' :: '-' :: ("a=1, 2\nb=3\n".toList).drop 5 :=
  (mcaPrePassFirstOccurrence ("a=1, 2\nb=3\n".toList) 3 (by decide)).2.1

/-- C9: on an input whose first character is '\r', the transformer's
`'\r'` branch evaluates `str[i - 1]` at `i = 0` - a read before the
start of the input string - so the execution is undefined (`none`)
rather than treating the character as not preceded by '\n'. -/
theorem mcaCrAtStartOutOfBounds :
    mca_to_json ['\r'] = none := by
  decide

/-- C10: on the input "ab" - which contains none of '\n', '\t', '\r' -
with the 99 over-read bytes also free of them (here the NULs the
repository's calloc-zeroed exec buffer supplies), every scanned byte is
kept, `j` reaches `strlen + 100`, and the terminator store writes one
byte past the `malloc(strlen + 100)` block: the execution is undefined
(`none`) rather than returning the filtered string.  When some scanned
byte is dropped the store stays in bounds and the claimed filtering does
hold, as the input "a\nb" shows; a null input returns null. -/
theorem stripTerminatorOverflow :
    strip (some ['a', 'b']) (fun _ => '\x00') = none
    ∧ strip (some ('a' :: '\n' :: 'b' :: [])) (fun _ => '\x00') = some ['a', 'b']
    ∧ strip none (fun _ => '\x00') = none := by
  decide
